import Mathlib

/-
Verification of the STAF unmarshalling module (src/STAF/_marshall.py).

The embedding follows the Python source closely:
  * strings are lists of characters (`Str`);
  * Python exceptions are modelled by the `Err` type returned through
    `Except`; `Err.unmarshallError` corresponds to `STAFUnmarshallError`
    (the only exception class caught by the lenient entry point), while
    `keyError`, `notImplementedError`, `attributeError`, `typeError` and
    `runtimeError` model the corresponding built-in Python exceptions,
    which the lenient entry point does not catch;
  * the Python call stack is modelled by an explicit `fuel` argument
    threaded through every (mutually) recursive function; running out of
    fuel yields `Err.runtimeError`, exactly as exceeding the interpreter
    recursion limit raises `RuntimeError` in Python 2.  The entry points
    use `RECURSION_LIMIT = 1000`, Python's default recursion limit.
-/

/-- Python (unicode) strings, modelled as lists of characters. -/
abbrev Str := List Char

/-- The three unmarshalling modes (`UNMARSHALL_RECURSIVE`,
`UNMARSHALL_NON_RECURSIVE`, `UNMARSHALL_NONE`). -/
inductive UnmarshallMode where
  | recursive
  | nonRecursive
  | none
deriving DecidableEq, Repr

/-- The distinct `STAFUnmarshallError` messages raised by the module. -/
inductive UMsg where
  | trailingData                           -- 'unexpected trailing data'
  | missingMarker                          -- 'missing marshalled data marker'
  | incompleteData                         -- 'incomplete marshalled data'
  | unrecognizedIndicator                  -- 'unrecognized data type indicator'
  | badClcFormat                           -- 'bad format for colon-length-colon object'
  | lengthExceedsData                      -- 'specified length exceeds available data'
  | badScalarFormat                        -- 'bad format for scalar object'
  | badNoneFormat                          -- 'bad format for none object'
  | badListFormat                          -- 'bad format for list object'
  | missingMapClassDefinition (name : Str) -- 'missing map class definition for %r'
deriving DecidableEq, Repr

/-- Decoded values.  A Python value produced by the unmarshaller is `None`,
a unicode string, a list, a dict (assoc list of key/value pairs, insertion
ordered), or a `MapClass` instance.  The `mapclass` constructor carries the
instance fields `class_name`, `_keys`, `_names` (key, display name, short
display name) and the underlying dict contents. -/
inductive Value where
  | none : Value
  | text (s : Str) : Value
  | list (elems : List Value) : Value
  | map (entries : List (Value × Value)) : Value
  | mapclass (class_name : Value) (keys : List Value)
      (names : List (Value × Value × Value)) (store : List (Value × Value)) : Value
deriving Repr

mutual

/-- Structural equality of values, modelling Python `==` on the values the
unmarshaller produces. -/
def Value.beq : Value → Value → Bool
  | .none, .none => true
  | .text s, .text t => decide (s = t)
  | .list xs, .list ys => Value.beqList xs ys
  | .map xs, .map ys => Value.beqPairs xs ys
  | .mapclass n k nm st, .mapclass n2 k2 nm2 st2 =>
      Value.beq n n2 && Value.beqList k k2 && Value.beqTriples nm nm2 &&
        Value.beqPairs st st2
  | _, _ => false
termination_by structural a => a

/-- Pointwise equality of value lists. -/
def Value.beqList : List Value → List Value → Bool
  | [], [] => true
  | a :: as, b :: bs => Value.beq a b && Value.beqList as bs
  | _, _ => false
termination_by structural a => a

/-- Pointwise equality of key/value pair lists. -/
def Value.beqPairs : List (Value × Value) → List (Value × Value) → Bool
  | [], [] => true
  | (k, v) :: as, (k2, v2) :: bs =>
      Value.beq k k2 && Value.beq v v2 && Value.beqPairs as bs
  | _, _ => false
termination_by structural a => a

/-- Pointwise equality of name triple lists. -/
def Value.beqTriples : List (Value × Value × Value) → List (Value × Value × Value) → Bool
  | [], [] => true
  | (k, dn, dsn) :: as, (k2, dn2, dsn2) :: bs =>
      Value.beq k k2 && Value.beq dn dn2 && Value.beq dsn dsn2 && Value.beqTriples as bs
  | _, _ => false
termination_by structural a => a

end

mutual

/-- `Value.beq` is sound for propositional equality. -/
theorem Value.eq_of_beq : (a b : Value) → Value.beq a b = true → a = b
  | .none, .none, _ => rfl
  | .text s, .text t, h => congrArg Value.text (of_decide_eq_true h)
  | .list xs, .list ys, h => congrArg Value.list (Value.eqList_of_beq xs ys h)
  | .map xs, .map ys, h => congrArg Value.map (Value.eqPairs_of_beq xs ys h)
  | .mapclass n k nm st, .mapclass n2 k2 nm2 st2, h => by
      have h4 : Value.beqPairs st st2 = true := by
        have := h; simp only [Value.beq, Bool.and_eq_true] at this; exact this.2
      have h3 : Value.beqTriples nm nm2 = true := by
        have := h; simp only [Value.beq, Bool.and_eq_true] at this; exact this.1.2
      have h2 : Value.beqList k k2 = true := by
        have := h; simp only [Value.beq, Bool.and_eq_true] at this; exact this.1.1.2
      have h1 : Value.beq n n2 = true := by
        have := h; simp only [Value.beq, Bool.and_eq_true] at this
        exact this.1.1.1
      rw [Value.eq_of_beq n n2 h1, Value.eqList_of_beq k k2 h2,
        Value.eqTriples_of_beq nm nm2 h3,
        Value.eqPairs_of_beq st st2 h4]
  | .none, .text _, h => nomatch h
  | .none, .list _, h => nomatch h
  | .none, .map _, h => nomatch h
  | .none, .mapclass _ _ _ _, h => nomatch h
  | .text _, .none, h => nomatch h
  | .text _, .list _, h => nomatch h
  | .text _, .map _, h => nomatch h
  | .text _, .mapclass _ _ _ _, h => nomatch h
  | .list _, .none, h => nomatch h
  | .list _, .text _, h => nomatch h
  | .list _, .map _, h => nomatch h
  | .list _, .mapclass _ _ _ _, h => nomatch h
  | .map _, .none, h => nomatch h
  | .map _, .text _, h => nomatch h
  | .map _, .list _, h => nomatch h
  | .map _, .mapclass _ _ _ _, h => nomatch h
  | .mapclass _ _ _ _, .none, h => nomatch h
  | .mapclass _ _ _ _, .text _, h => nomatch h
  | .mapclass _ _ _ _, .list _, h => nomatch h
  | .mapclass _ _ _ _, .map _, h => nomatch h
termination_by structural a => a

/-- `Value.beqList` is sound for propositional equality. -/
theorem Value.eqList_of_beq : (a b : List Value) → Value.beqList a b = true → a = b
  | [], [], _ => rfl
  | a :: as, b :: bs, h => by
      have hs : Value.beqList as bs = true := by
        have := h; simp only [Value.beqList, Bool.and_eq_true] at this; exact this.2
      have ha : Value.beq a b = true := by
        have := h; simp only [Value.beqList, Bool.and_eq_true] at this; exact this.1
      rw [Value.eq_of_beq a b ha, Value.eqList_of_beq as bs hs]
  | [], _ :: _, h => nomatch h
  | _ :: _, [], h => nomatch h
termination_by structural a => a

/-- `Value.beqPairs` is sound for propositional equality. -/
theorem Value.eqPairs_of_beq :
    (a b : List (Value × Value)) → Value.beqPairs a b = true → a = b
  | [], [], _ => rfl
  | (k, v) :: as, (k2, v2) :: bs, h => by
      have hs : Value.beqPairs as bs = true := by
        have := h; simp only [Value.beqPairs, Bool.and_eq_true] at this; exact this.2
      have hv : Value.beq v v2 = true := by
        have := h; simp only [Value.beqPairs, Bool.and_eq_true] at this; exact this.1.2
      have hk : Value.beq k k2 = true := by
        have := h; simp only [Value.beqPairs, Bool.and_eq_true] at this; exact this.1.1
      rw [Value.eq_of_beq k k2 hk, Value.eq_of_beq v v2 hv,
        Value.eqPairs_of_beq as bs hs]
  | [], _ :: _, h => nomatch h
  | _ :: _, [], h => nomatch h
termination_by structural a => a

/-- `Value.beqTriples` is sound for propositional equality. -/
theorem Value.eqTriples_of_beq :
    (a b : List (Value × Value × Value)) → Value.beqTriples a b = true → a = b
  | [], [], _ => rfl
  | (k, dn, dsn) :: as, (k2, dn2, dsn2) :: bs, h => by
      have hs : Value.beqTriples as bs = true := by
        have := h; simp only [Value.beqTriples, Bool.and_eq_true] at this; exact this.2
      have h3 : Value.beq dsn dsn2 = true := by
        have := h; simp only [Value.beqTriples, Bool.and_eq_true] at this; exact this.1.2
      have h2 : Value.beq dn dn2 = true := by
        have := h; simp only [Value.beqTriples, Bool.and_eq_true] at this; exact this.1.1.2
      have h1 : Value.beq k k2 = true := by
        have := h; simp only [Value.beqTriples, Bool.and_eq_true] at this; exact this.1.1.1
      rw [Value.eq_of_beq k k2 h1, Value.eq_of_beq dn dn2 h2,
        Value.eq_of_beq dsn dsn2 h3, Value.eqTriples_of_beq as bs hs]
  | [], _ :: _, h => nomatch h
  | _ :: _, [], h => nomatch h
termination_by structural a => a

end

mutual

/-- `Value.beq` is reflexive. -/
theorem Value.beq_refl : (a : Value) → Value.beq a a = true
  | .none => rfl
  | .text s => by simp [Value.beq]
  | .list xs => Value.beqList_refl xs
  | .map xs => Value.beqPairs_refl xs
  | .mapclass n k nm st => by
      simp [Value.beq, Value.beq_refl n, Value.beqList_refl k,
        Value.beqTriples_refl nm, Value.beqPairs_refl st]
termination_by structural a => a

/-- `Value.beqList` is reflexive. -/
theorem Value.beqList_refl : (a : List Value) → Value.beqList a a = true
  | [] => rfl
  | a :: as => by simp [Value.beqList, Value.beq_refl a, Value.beqList_refl as]
termination_by structural a => a

/-- `Value.beqPairs` is reflexive. -/
theorem Value.beqPairs_refl : (a : List (Value × Value)) → Value.beqPairs a a = true
  | [] => rfl
  | (k, v) :: as => by
      simp [Value.beqPairs, Value.beq_refl k, Value.beq_refl v, Value.beqPairs_refl as]
termination_by structural a => a

/-- `Value.beqTriples` is reflexive. -/
theorem Value.beqTriples_refl :
    (a : List (Value × Value × Value)) → Value.beqTriples a a = true
  | [] => rfl
  | (k, dn, dsn) :: as => by
      simp [Value.beqTriples, Value.beq_refl k, Value.beq_refl dn, Value.beq_refl dsn,
        Value.beqTriples_refl as]
termination_by structural a => a

end

instance : DecidableEq Value := fun a b =>
  if h : Value.beq a b = true then isTrue (Value.eq_of_beq a b h)
  else isFalse (fun he => h (he ▸ Value.beq_refl a))

/-- Python exceptions raised by the module.  Only `unmarshallError`
(`STAFUnmarshallError`) is caught by the lenient `unmarshall`. -/
inductive Err where
  | unmarshallError (m : UMsg)      -- STAFUnmarshallError
  | keyError (k : Value)            -- KeyError
  | notImplementedError (m : String) -- NotImplementedError
  | attributeError                  -- AttributeError (no such method)
  | typeError                       -- TypeError (bad indexing/iteration)
  | runtimeError                    -- RuntimeError: maximum recursion depth exceeded
deriving DecidableEq, Repr

/-- Dict lookup on an association list (Python `d[k]` / `d.get(k)` success
case): first pair whose key equals `k`. -/
def alookup {α : Type} : List (Value × α) → Value → Option α
  | [], _ => Option.none
  | p :: rest, k => if p.1 = k then some p.2 else alookup rest k

/-- Dict store on an association list (Python `d[k] = v`): replace the value
of the first pair whose key equals `k`, keeping the original key object, or
append a new pair at the end. -/
def assocInsert {α : Type} : List (Value × α) → Value → α → List (Value × α)
  | [], k, v => [(k, v)]
  | p :: rest, k, v => if p.1 = k then (p.1, v) :: rest else p :: assocInsert rest k v

/-- Dict membership (Python `k in d`). -/
def containsKey {α : Type} (l : List (Value × α)) (k : Value) : Bool :=
  (alookup l k).isSome

/-- Map class definitions (`MapClassDefinition`): a class name, the ordered
key list, and the display-name dict `_names` mapping a key to its
`(display_name, display_short_name)` pair.  Keys and display names are
arbitrary decoded values, as in the source. -/
structure MapClassDefinition where
  name : Value
  keys : List Value
  names : List (Value × Value × Value)
deriving DecidableEq, Repr

/-- `MapClassDefinition.add_item`: append `key` to the ordered key list and
record its display names (a repeated key is appended again to `keys` while
its `_names` entry is overwritten). -/
def MapClassDefinition.add_item (d : MapClassDefinition) (key display_name : Value)
    (display_short_name : Value) : MapClassDefinition :=
  { d with keys := d.keys ++ [key],
           names := assocInsert d.names key (display_name, display_short_name) }

/-- `MapClassDefinition.display_name`: first component of the `_names` entry
(`KeyError` when the key is unknown). -/
def MapClassDefinition.display_name (d : MapClassDefinition) (key : Value) :
    Except Err Value :=
  match alookup d.names key with
  | some p => .ok p.1
  | Option.none => .error (.keyError key)

/-- `MapClassDefinition.display_short_name`: second component of the
`_names` entry (`KeyError` when the key is unknown). -/
def MapClassDefinition.display_short_name (d : MapClassDefinition) (key : Value) :
    Except Err Value :=
  match alookup d.names key with
  | some p => .ok p.2
  | Option.none => .error (.keyError key)

/-- Map class instances (`MapClass`): the class name, the copied `_keys`
list and `_names` dict, and the inherited dict contents (`store`). -/
structure MapClass where
  class_name : Value
  keys : List Value
  names : List (Value × Value × Value)
  store : List (Value × Value)
deriving DecidableEq, Repr

/-- `MapClass.__setitem__`: store the value if the key is in `_names`,
otherwise raise `KeyError`. -/
def MapClass.setitem (mc : MapClass) (key v : Value) : Except Err MapClass :=
  if containsKey mc.names key then
    .ok { mc with store := assocInsert mc.store key v }
  else
    .error (.keyError key)

/-- The loop in `MapClass.__init__`: `for key in self._keys: self[key] = None`. -/
def MapClass.initLoop : MapClass → List Value → Except Err MapClass
  | mc, [] => .ok mc
  | mc, k :: ks =>
      match mc.setitem k Value.none with
      | .ok mc2 => MapClass.initLoop mc2 ks
      | .error e => .error e

/-- `MapClass.__init__`: copy the definition data, then set every listed key
to `None` through `__setitem__`. -/
def MapClass.make (class_name : Value) (keys : List Value)
    (names : List (Value × Value × Value)) : Except Err MapClass :=
  MapClass.initLoop ⟨class_name, keys, names, []⟩ keys

/-- `MapClass.__delitem__`: unconditionally raises `NotImplementedError`. -/
def MapClass.delitem (_mc : MapClass) (_key : Value) : Except Err MapClass :=
  .error (.notImplementedError "item deletion is not supported in MapClass")

/-- `MapClass.clear`: unconditionally raises `NotImplementedError`. -/
def MapClass.clear (_mc : MapClass) : Except Err MapClass :=
  .error (.notImplementedError "clear() is not supported in MapClass")

/-- `MapClass.pop`: unconditionally raises `NotImplementedError`. -/
def MapClass.pop (_mc : MapClass) (_key _default : Value) : Except Err Value :=
  .error (.notImplementedError "pop() is not supported in MapClass")

/-- `MapClass.popitem`: unconditionally raises `NotImplementedError`. -/
def MapClass.popitem (_mc : MapClass) : Except Err (Value × Value) :=
  .error (.notImplementedError "popitem() is not supported in MapClass")

/-- `MapClass.update`: builds a dict from its arguments, checks every key
for membership, then calls `self.update(as_dict)` again -- the recursive
call is unconditional, so in Python this method always exhausts the
interpreter stack (`RuntimeError`) once the key check passes.  The fuel
argument models the interpreter stack. -/
def MapClass.update : Nat → MapClass → List (Value × Value) → Except Err MapClass
  | 0, _, _ => .error .runtimeError
  | fuel+1, mc, as_dict =>
      match as_dict.find? (fun p => !(containsKey mc.store p.1)) with
      | some p => .error (.keyError p.1)
      | Option.none => MapClass.update fuel mc as_dict

/-- `MapClass.__getitem__` (inherited from `dict`). -/
def MapClass.getitem (mc : MapClass) (key : Value) : Except Err Value :=
  match alookup mc.store key with
  | some v => .ok v
  | Option.none => .error (.keyError key)

/-- `MapClass.keys()`: a copy of the ordered `_keys` list. -/
def MapClass.keysList (mc : MapClass) : List Value :=
  mc.keys

/-- The loop of `MapClass.itervalues`: `self[key]` per listed key, in order. -/
def MapClass.valuesLoop (mc : MapClass) : List Value → Except Err (List Value)
  | [] => .ok []
  | k :: ks =>
      match mc.getitem k with
      | .error e => .error e
      | .ok v =>
          match MapClass.valuesLoop mc ks with
          | .error e => .error e
          | .ok vs => .ok (v :: vs)

/-- `MapClass.values()`: `self[key]` for each key of `_keys`, in order. -/
def MapClass.valuesList (mc : MapClass) : Except Err (List Value) :=
  MapClass.valuesLoop mc mc.keys

/-- The loop of `MapClass.iteritems`: `(key, self[key])` per listed key. -/
def MapClass.itemsLoop (mc : MapClass) : List Value → Except Err (List (Value × Value))
  | [] => .ok []
  | k :: ks =>
      match mc.getitem k with
      | .error e => .error e
      | .ok v =>
          match MapClass.itemsLoop mc ks with
          | .error e => .error e
          | .ok ps => .ok ((k, v) :: ps)

/-- `MapClass.items()`: `(key, self[key])` for each key of `_keys`, in order. -/
def MapClass.itemsList (mc : MapClass) : Except Err (List (Value × Value)) :=
  MapClass.itemsLoop mc mc.keys

/-- View a `MapClass` as a decoded value. -/
def MapClass.toValue (mc : MapClass) : Value :=
  .mapclass mc.class_name mc.keys mc.names mc.store

/-- `MapClassDefinition.map_class`: build a `MapClass` from the definition
and run `update` on the constructor arguments (the unmarshaller always
passes no arguments, i.e. an empty dict). -/
def MapClassDefinition.map_class (fuel : Nat) (d : MapClassDefinition)
    (as_dict : List (Value × Value)) : Except Err MapClass :=
  match MapClass.make d.name d.keys d.names with
  | .error e => .error e
  | .ok mc => MapClass.update fuel mc as_dict

/-- The decoding context (`context` parameter): a dict from map class name
to `MapClassDefinition`. -/
abbrev Ctx := List (Value × MapClassDefinition)

/-- The fixed marshalled-data marker `@SDT/`. -/
def marker : Str := "@SDT/".toList

/-- The `{` type indicator character. -/
def lbrace : Char := Char.ofNat 123

/-- Value of a decimal digit string (`int(...)` on the regex group). -/
def natOfDigits (ds : Str) : Nat :=
  ds.foldl (fun n c => n * 10 + (c.toNat - 48)) 0

/-- `Unmarshaller.read_clc_obj`: read a colon-length-colon denoted object
(`:<decimal>:<that many characters>`), returning the object and the rest of
the data. -/
def read_clc_obj (data : Str) : Except Err (Str × Str) :=
  match data with
  | ':' :: rest =>
      let digits := rest.takeWhile (fun c => c.isDigit)
      if digits = [] then .error (.unmarshallError .badClcFormat)
      else
        match rest.dropWhile (fun c => c.isDigit) with
        | ':' :: rest2 =>
            let len := natOfDigits digits
            if rest2.length < len then .error (.unmarshallError .lengthExceedsData)
            else .ok (rest2.take len, rest2.drop len)
        | _ => .error (.unmarshallError .badClcFormat)
  | _ => .error (.unmarshallError .badClcFormat)

/-- Python `value[key]` for the decoded values the unmarshaller handles:
dicts and `MapClass` instances index by key (`KeyError` on a missing key),
anything else raises `TypeError`. -/
def getItemV : Value → Value → Except Err Value
  | .map entries, k =>
      match alookup entries k with
      | some v => .ok v
      | Option.none => .error (.keyError k)
  | .mapclass _ _ _ store, k =>
      match alookup store k with
      | some v => .ok v
      | Option.none => .error (.keyError k)
  | _, _ => .error .typeError

/-- Python `value.get(key, default)`: available on dicts and `MapClass`
instances; on any other value the attribute access raises `AttributeError`. -/
def dictGetV : Value → Value → Value → Except Err Value
  | .map entries, k, dflt => .ok ((alookup entries k).getD dflt)
  | .mapclass _ _ _ store, k, dflt => .ok ((alookup store k).getD dflt)
  | _, _, _ => .error .attributeError

/-- Python `value.iteritems()`: dict items in order; for a `MapClass`,
`(key, self[key])` in `_keys` order; anything else raises `AttributeError`. -/
def iterItemsV : Value → Except Err (List (Value × Value))
  | .map entries => .ok entries
  | .mapclass _ keys _ store =>
      keys.mapM (fun k =>
        match alookup store k with
        | some v => .ok (k, v)
        | Option.none => .error (.keyError k))
  | _ => .error .attributeError

/-- Python `for item in value`: lists yield elements, dicts yield keys,
strings yield one-character strings, `MapClass` instances yield `_keys`;
`None` is not iterable (`TypeError`). -/
def iterateV : Value → Except Err (List Value)
  | .list xs => .ok xs
  | .map entries => .ok (entries.map (fun p => p.1))
  | .text s => .ok (s.map (fun c => Value.text [c]))
  | .mapclass _ keys _ _ => .ok keys
  | .none => .error .typeError

/-- The dict keys used by `ContextUnmarshaller`. -/
def mapClassMapKey : Value := .text "map-class-map".toList

/-- The `keys` key of a map class description. -/
def keysKey : Value := .text "keys".toList

/-- The `key` key of a field descriptor. -/
def keyKey : Value := .text "key".toList

/-- The `display-name` key of a field descriptor. -/
def displayNameKey : Value := .text "display-name".toList

/-- The `display-short-name` key of a field descriptor. -/
def displayShortNameKey : Value := .text "display-short-name".toList

/-- The inner loop of `ContextUnmarshaller.unmarshall`: add one `add_item`
call per field descriptor in `info['keys']`, reading `item['key']`,
`item['display-name']` and `item.get('display-short-name')`. -/
def buildFields : MapClassDefinition → List Value → Except Err MapClassDefinition
  | d, [] => .ok d
  | d, item :: rest =>
      match getItemV item keyKey with
      | .error e => .error e
      | .ok k =>
          match getItemV item displayNameKey with
          | .error e => .error e
          | .ok dn =>
              match dictGetV item displayShortNameKey Value.none with
              | .error e => .error e
              | .ok dsn => buildFields (d.add_item k dn dsn) rest

/-- The outer loop of `ContextUnmarshaller.unmarshall`: build a fresh
context dict mapping each name of the class map to a `MapClassDefinition`
built from its `keys` descriptor list. -/
def buildDefs : List (Value × Value) → Ctx → Except Err Ctx
  | [], acc => .ok acc
  | (name, info) :: rest, acc =>
      match getItemV info keysKey with
      | .error e => .error e
      | .ok keysVal =>
          match iterateV keysVal with
          | .error e => .error e
          | .ok items =>
              match buildFields ⟨name, [], []⟩ items with
              | .error e => .error e
              | .ok class_def => buildDefs rest (assocInsert acc name class_def)

mutual

/-- `unmarshall_internal`: check the marker, read the type indicator
character, and dispatch to the matching unmarshaller. -/
def unmarshall_internal (fuel : Nat) (data : Str) (mode : UnmarshallMode)
    (context : Ctx) : Except Err (Value × Str) :=
  match fuel with
  | 0 => .error .runtimeError
  | fuel+1 =>
      if marker.isPrefixOf data then
        match data.drop marker.length with
        | [] => .error (.unmarshallError .incompleteData)
        | symbol :: rest =>
            if symbol = '$' then ScalarUnmarshaller.unmarshall fuel rest mode context
            else if symbol = lbrace then MapUnmarshaller.unmarshall fuel rest mode context
            else if symbol = '[' then ListUnmarshaller.unmarshall fuel rest mode context
            else if symbol = '%' then MapClassUnmarshaller.unmarshall fuel rest mode context
            else if symbol = '*' then ContextUnmarshaller.unmarshall fuel rest mode context
            else .error (.unmarshallError .unrecognizedIndicator)
      else .error (.unmarshallError .missingMarker)
termination_by structural fuel

/-- `unmarshall_force` with the interpreter stack made explicit: in mode
`None` return the data unchanged (as a Text value); otherwise run
`unmarshall_internal` with a fresh empty context and reject trailing data. -/
def unmarshall_force_fuel (fuel : Nat) (data : Str) (mode : UnmarshallMode) :
    Except Err Value :=
  match fuel with
  | 0 => .error .runtimeError
  | fuel+1 =>
      if mode = UnmarshallMode.none then .ok (.text data)
      else
        match unmarshall_internal fuel data mode [] with
        | .error e => .error e
        | .ok (obj, remainder) =>
            if remainder = [] then .ok obj
            else .error (.unmarshallError .trailingData)
termination_by structural fuel

/-- `ScalarUnmarshaller.unmarshall`: a one-character `0`/`S` indicator then
a colon-length-colon object; `0` requires an empty object and yields `None`;
`S` yields the text, re-unmarshalled through the lenient entry point
(`unmarshall(obj, mode)`, hence with a fresh empty context) in mode
`Recursive`. -/
def ScalarUnmarshaller.unmarshall (fuel : Nat) (data : Str) (mode : UnmarshallMode)
    (context : Ctx) : Except Err (Value × Str) :=
  match fuel with
  | 0 => .error .runtimeError
  | fuel+1 =>
      match data with
      | [] => .error (.unmarshallError .badScalarFormat)
      | typ :: rest1 =>
          if typ = '0' ∨ typ = 'S' then
            match read_clc_obj rest1 with
            | .error e => .error e
            | .ok (obj, rest) =>
                if typ = '0' then
                  if obj = [] then .ok (.none, rest)
                  else .error (.unmarshallError .badNoneFormat)
                else
                  match mode with
                  | .recursive =>
                      match unmarshall_force_fuel fuel obj mode with
                      | .ok v => .ok (v, rest)
                      | .error (.unmarshallError _) => .ok (.text obj, rest)
                      | .error e => .error e
                  | _ => .ok (.text obj, rest)
          else .error (.unmarshallError .badScalarFormat)
termination_by structural fuel

/-- The `while items:` loop of `MapUnmarshaller.unmarshall`: read a
colon-length-colon key then a value, store the pair, repeat until the
payload is exhausted. -/
def MapUnmarshaller.loop (fuel : Nat) (items : Str) (mode : UnmarshallMode)
    (context : Ctx) (result : List (Value × Value)) :
    Except Err (List (Value × Value)) :=
  match fuel with
  | 0 => .error .runtimeError
  | fuel+1 =>
      match items with
      | [] => .ok result
      | _ :: _ =>
          match read_clc_obj items with
          | .error e => .error e
          | .ok (key, items1) =>
              match unmarshall_internal fuel items1 mode context with
              | .error e => .error e
              | .ok (val, items2) =>
                  MapUnmarshaller.loop fuel items2 mode context
                    (assocInsert result (.text key) val)
termination_by structural fuel

/-- `MapUnmarshaller.unmarshall`: a colon-length-colon payload holding
(key, value) pairs until exhaustion. -/
def MapUnmarshaller.unmarshall (fuel : Nat) (data : Str) (mode : UnmarshallMode)
    (context : Ctx) : Except Err (Value × Str) :=
  match fuel with
  | 0 => .error .runtimeError
  | fuel+1 =>
      match read_clc_obj data with
      | .error e => .error e
      | .ok (items, remainder) =>
          match MapUnmarshaller.loop fuel items mode context [] with
          | .error e => .error e
          | .ok entries => .ok (.map entries, remainder)
termination_by structural fuel

/-- The `for i in range(count)` loop of `ListUnmarshaller.unmarshall`. -/
def ListUnmarshaller.loop (fuel : Nat) (count : Nat) (items : Str)
    (mode : UnmarshallMode) (context : Ctx) : Except Err (List Value × Str) :=
  match fuel with
  | 0 => .error .runtimeError
  | fuel+1 =>
      match count with
      | 0 => .ok ([], items)
      | count+1 =>
          match unmarshall_internal fuel items mode context with
          | .error e => .error e
          | .ok (obj, items1) =>
              match ListUnmarshaller.loop fuel count items1 mode context with
              | .error e => .error e
              | .ok (objs, items2) => .ok (obj :: objs, items2)
termination_by structural fuel

/-- `ListUnmarshaller.unmarshall`: a decimal element count, then a
colon-length-colon payload from which exactly `count` values are decoded;
leftover payload is an error. -/
def ListUnmarshaller.unmarshall (fuel : Nat) (data : Str) (mode : UnmarshallMode)
    (context : Ctx) : Except Err (Value × Str) :=
  match fuel with
  | 0 => .error .runtimeError
  | fuel+1 =>
      let digits := data.takeWhile (fun c => c.isDigit)
      if digits = [] then .error (.unmarshallError .badListFormat)
      else
        match read_clc_obj (data.dropWhile (fun c => c.isDigit)) with
        | .error e => .error e
        | .ok (items, remainder) =>
            match ListUnmarshaller.loop fuel (natOfDigits digits) items mode context with
            | .error e => .error e
            | .ok (objs, items2) =>
                if items2 = [] then .ok (.list objs, remainder)
                else .error (.unmarshallError .trailingData)
termination_by structural fuel

/-- The `for key in class_def.keys` loop of `MapClassUnmarshaller.unmarshall`:
decode one value per declared key, in declared order, storing it under that
key. -/
def MapClassUnmarshaller.fieldLoop (fuel : Nat) (keys : List Value)
    (result : MapClass) (values : Str) (mode : UnmarshallMode) (context : Ctx) :
    Except Err (MapClass × Str) :=
  match fuel with
  | 0 => .error .runtimeError
  | fuel+1 =>
      match keys with
      | [] => .ok (result, values)
      | key :: rest =>
          match unmarshall_internal fuel values mode context with
          | .error e => .error e
          | .ok (value, values1) =>
              match result.setitem key value with
              | .error e => .error e
              | .ok result1 =>
                  MapClassUnmarshaller.fieldLoop fuel rest result1 values1 mode context
termination_by structural fuel

/-- `MapClassUnmarshaller.unmarshall`: a colon-length-colon payload holding
the colon-length-colon class name and the field values; the class name must
be present in the current context, then a `MapClass` is built via
`map_class()` and filled field by field. -/
def MapClassUnmarshaller.unmarshall (fuel : Nat) (data : Str)
    (mode : UnmarshallMode) (context : Ctx) : Except Err (Value × Str) :=
  match fuel with
  | 0 => .error .runtimeError
  | fuel+1 =>
      match read_clc_obj data with
      | .error e => .error e
      | .ok (content, remainder) =>
          match read_clc_obj content with
          | .error e => .error e
          | .ok (class_name, values) =>
              match alookup context (.text class_name) with
              | Option.none =>
                  .error (.unmarshallError (.missingMapClassDefinition class_name))
              | some class_def =>
                  match MapClassDefinition.map_class fuel class_def [] with
                  | .error e => .error e
                  | .ok result =>
                      match MapClassUnmarshaller.fieldLoop fuel class_def.keys result
                          values mode context with
                      | .error e => .error e
                      | .ok (result2, values2) =>
                          if values2 = [] then .ok (result2.toValue, remainder)
                          else .error (.unmarshallError .trailingData)
termination_by structural fuel

/-- `ContextUnmarshaller.unmarshall`: decode the embedded context map, build
a fresh context dict from its `map-class-map` entry (defaulting to an empty
dict when the key is absent), then decode the root value under the new
context only. -/
def ContextUnmarshaller.unmarshall (fuel : Nat) (data : Str)
    (mode : UnmarshallMode) (context : Ctx) : Except Err (Value × Str) :=
  match fuel with
  | 0 => .error .runtimeError
  | fuel+1 =>
      match read_clc_obj data with
      | .error e => .error e
      | .ok (content, remainder) =>
          match unmarshall_internal fuel content mode context with
          | .error e => .error e
          | .ok (context_map, root_data) =>
              match dictGetV context_map mapClassMapKey (.map []) with
              | .error e => .error e
              | .ok class_map =>
                  match iterItemsV class_map with
                  | .error e => .error e
                  | .ok cmItems =>
                      match buildDefs cmItems [] with
                      | .error e => .error e
                      | .ok new_context =>
                          match unmarshall_internal fuel root_data mode new_context with
                          | .error e => .error e
                          | .ok (root_obj, trailing) =>
                              if trailing = [] then .ok (root_obj, remainder)
                              else .error (.unmarshallError .trailingData)
termination_by structural fuel

end

/-- Python's default recursion limit, the depth bound of the modelled
interpreter stack. -/
def RECURSION_LIMIT : Nat := 1000

/-- `unmarshall_force`: the strict entry point. -/
def unmarshall_force (data : Str) (mode : UnmarshallMode) : Except Err Value :=
  unmarshall_force_fuel RECURSION_LIMIT data mode

/-- `unmarshall`: the lenient entry point; catches `STAFUnmarshallError`
(and only that exception) and returns the data unchanged. -/
def unmarshall (data : Str) (mode : UnmarshallMode) : Except Err Value :=
  match unmarshall_force data mode with
  | .error (.unmarshallError _) => .ok (.text data)
  | r => r

/-- Convenience conversion from Lean string literals. -/
def strOf (s : String) : Str := s.toList

/-- Looking up the key just stored finds the stored value. -/
theorem alookup_assocInsert_self {α : Type} (l : List (Value × α)) (k : Value) (v : α) :
    alookup (assocInsert l k v) k = some v := by
  induction l with
  | nil => simp [assocInsert, alookup]
  | cons p rest ih =>
      by_cases hp : p.1 = k
      · simp [assocInsert, hp, alookup]
      · simp [assocInsert, hp, alookup, ih]

/-- Storing under one key leaves lookups of other keys unchanged. -/
theorem alookup_assocInsert_ne {α : Type} (l : List (Value × α)) (k : Value) (v : α)
    (k2 : Value) (h : k ≠ k2) :
    alookup (assocInsert l k v) k2 = alookup l k2 := by
  induction l with
  | nil => simp [assocInsert, alookup, h]
  | cons p rest ih =>
      by_cases hp : p.1 = k
      · have hp2 : ¬ p.1 = k2 := by rw [hp]; exact h
        simp [assocInsert, hp, alookup, hp2, h]
      · simp [assocInsert, hp, alookup, ih]

/-- The key set after a store: the old key set plus the stored key. -/
theorem containsKey_assocInsert {α : Type} (l : List (Value × α)) (k : Value) (v : α)
    (k2 : Value) :
    containsKey (assocInsert l k v) k2 = (containsKey l k2 || decide (k = k2)) := by
  by_cases h : k = k2
  · subst h
    simp [containsKey, alookup_assocInsert_self]
  · simp [containsKey, alookup_assocInsert_ne l k v k2 h, h]

/-- Dict membership means some stored pair has the queried key. -/
theorem containsKey_iff_exists {α : Type} (l : List (Value × α)) (k : Value) :
    containsKey l k = true ↔ ∃ p, p ∈ l ∧ p.1 = k := by
  induction l with
  | nil => simp [containsKey, alookup]
  | cons p rest ih =>
      by_cases hp : p.1 = k
      · constructor
        · intro _
          exact ⟨p, List.mem_cons_self p rest, hp⟩
        · intro _
          simp [containsKey, alookup, hp]
      · have hstep : containsKey (p :: rest) k = containsKey rest k := by
          simp [containsKey, alookup, hp]
        rw [hstep, ih]
        constructor
        · rintro ⟨q, hq, hq1⟩
          exact ⟨q, List.mem_cons_of_mem p hq, hq1⟩
        · rintro ⟨q, hq, hq1⟩
          rcases List.mem_cons.mp hq with h1 | h1
          · exact absurd (h1 ▸ hq1) hp
          · exact ⟨q, h1, hq1⟩

/-- `MapClass.update` called with an empty dict (as `map_class()` does)
always exhausts the stack: the recursive `self.update(as_dict)` call has no
terminating branch. -/
theorem update_nil_runtimeError : ∀ (fuel : Nat) (mc : MapClass),
    MapClass.update fuel mc [] = .error .runtimeError
  | 0, _ => rfl
  | fuel+1, mc => by
      have ih := update_nil_runtimeError fuel mc
      simp [MapClass.update, List.find?, ih]

/-- Specification of the `__init__` loop: when every listed key has a
`_names` entry the loop succeeds, changes nothing except the dict contents,
and afterwards every listed key maps to `None`. -/
theorem initLoop_spec : ∀ (ks : List Value) (m : MapClass),
    (∀ k ∈ ks, containsKey m.names k = true) →
    ∃ m2, MapClass.initLoop m ks = .ok m2 ∧
      m2.class_name = m.class_name ∧ m2.keys = m.keys ∧ m2.names = m.names ∧
      (∀ k2, alookup m2.store k2 =
        if k2 ∈ ks then some Value.none else alookup m.store k2)
  | [], m, _ => ⟨m, rfl, rfl, rfl, rfl, by intro k2; simp [MapClass.initLoop]⟩
  | k :: ks, m, h => by
      have hk : containsKey m.names k = true := h k (List.mem_cons_self k ks)
      have h1 : ∀ k2 ∈ ks,
          containsKey ({ m with store := assocInsert m.store k Value.none } :
            MapClass).names k2 = true := by
        intro k2 hk2
        simpa using h k2 (List.mem_cons_of_mem k hk2)
      obtain ⟨m2, he, hc, hkk, hn, hs⟩ :=
        initLoop_spec ks { m with store := assocInsert m.store k Value.none } h1
      refine ⟨m2, ?_, ?_, ?_, ?_, ?_⟩
      · simp [MapClass.initLoop, MapClass.setitem, hk]
        exact he
      · simpa using hc
      · simpa using hkk
      · simpa using hn
      · intro k2
        rw [hs k2]
        by_cases hmem : k2 ∈ ks
        · have hmem2 : k2 ∈ k :: ks := List.mem_cons_of_mem k hmem
          simp [hmem, hmem2]
        · by_cases heq : k = k2
          · have hmem2 : k2 ∈ k :: ks := by
              rw [← heq]; exact List.mem_cons_self k ks
            subst heq
            simp [hmem, hmem2, alookup_assocInsert_self]
          · have hmem2 : k2 ∉ k :: ks := by
              intro hcon
              rcases List.mem_cons.mp hcon with h1 | h1
              · exact heq h1.symm
              · exact hmem h1
            simp [hmem, hmem2, alookup_assocInsert_ne m.store k Value.none k2 heq]

/-- Specification of `MapClass.__init__` via `make`: given a definition
whose listed keys all have `_names` entries, construction succeeds and the
dict maps exactly the listed keys, each to `None`. -/
theorem make_spec (d : MapClassDefinition)
    (h : ∀ k ∈ d.keys, containsKey d.names k = true) :
    ∃ mc, MapClass.make d.name d.keys d.names = .ok mc ∧
      mc.class_name = d.name ∧ mc.keys = d.keys ∧ mc.names = d.names ∧
      (∀ k2, alookup mc.store k2 =
        if k2 ∈ d.keys then some Value.none else Option.none) := by
  obtain ⟨mc, he, hc, hk, hn, hs⟩ :=
    initLoop_spec d.keys ⟨d.name, d.keys, d.names, []⟩ (by simpa using h)
  refine ⟨mc, he, by simpa using hc, by simpa using hk, by simpa using hn, ?_⟩
  intro k2
  have := hs k2
  simpa [alookup] using this

/-- Well-formedness of a `MapClassDefinition` as `add_item` maintains it:
every listed key has a `_names` entry and every `_names` entry key is
listed. -/
def alignedDef (d : MapClassDefinition) : Prop :=
  (∀ k ∈ d.keys, containsKey d.names k = true) ∧ ∀ p ∈ d.names, p.1 ∈ d.keys

instance (d : MapClassDefinition) : Decidable (alignedDef d) :=
  inferInstanceAs (Decidable
    ((∀ k ∈ d.keys, containsKey d.names k = true) ∧ ∀ p ∈ d.names, p.1 ∈ d.keys))

/-- The record invariant of a `MapClass` bound to a definition: the copied
key list and names dict match the definition, and the key set of the dict
contents is exactly the definition's key set. -/
def recordInv (d : MapClassDefinition) (m : MapClass) : Prop :=
  m.keys = d.keys ∧ m.names = d.names ∧
    ∀ k, containsKey m.store k = true ↔ k ∈ d.keys

/-- When every listed key is present in the dict, the items loop succeeds,
yields the keys in listed order, and the values loop yields the
corresponding values. -/
theorem itemsLoop_spec (m : MapClass) : ∀ (ks : List Value),
    (∀ k ∈ ks, containsKey m.store k = true) →
    ∃ its, MapClass.itemsLoop m ks = .ok its ∧ its.map Prod.fst = ks ∧
      MapClass.valuesLoop m ks = .ok (its.map Prod.snd)
  | [], _ => ⟨[], rfl, rfl, rfl⟩
  | k :: ks, h => by
      have hk : containsKey m.store k = true := h k (List.mem_cons_self k ks)
      obtain ⟨v, hv⟩ : ∃ v, alookup m.store k = some v := by
        cases hvv : alookup m.store k with
        | none => simp [containsKey, hvv] at hk
        | some v => exact ⟨v, rfl⟩
      obtain ⟨its, hi, hf, hvals⟩ :=
        itemsLoop_spec m ks (fun k2 hk2 => h k2 (List.mem_cons_of_mem k hk2))
      refine ⟨(k, v) :: its, ?_, ?_, ?_⟩
      · simp [MapClass.itemsLoop, MapClass.getitem, hv, hi]
      · simp [hf]
      · simp [MapClass.valuesLoop, MapClass.getitem, hv, hvals]

/-- Right after construction the items loop yields `(key, None)` pairs in
listed order. -/
theorem itemsLoop_all_none (m : MapClass) : ∀ (ks : List Value),
    (∀ k ∈ ks, alookup m.store k = some Value.none) →
    MapClass.itemsLoop m ks = .ok (ks.map (fun k => (k, Value.none)))
  | [], _ => rfl
  | k :: ks, h => by
      have hk := h k (List.mem_cons_self k ks)
      have ih := itemsLoop_all_none m ks (fun k2 hk2 => h k2 (List.mem_cons_of_mem k hk2))
      simp [MapClass.itemsLoop, MapClass.getitem, hk, ih]

/-- A strict-decode failure by `STAFUnmarshallError` makes the lenient
entry point return the input unchanged. -/
theorem unmarshall_of_force_unmarshallError (data : Str) (mode : UnmarshallMode)
    (m : UMsg) (h : unmarshall_force data mode = .error (.unmarshallError m)) :
    unmarshall data mode = .ok (.text data) := by
  simp [unmarshall, h]

/-- A non-marker input makes `unmarshall_internal` fail at the marker
check. -/
theorem internal_missingMarker (fuel : Nat) (data : Str) (mode : UnmarshallMode)
    (context : Ctx) (h : marker.isPrefixOf data = false) :
    unmarshall_internal (fuel+1) data mode context =
      .error (.unmarshallError .missingMarker) := by
  simp [unmarshall_internal, h]

/-- A non-marker input makes the strict decode fail at the marker check, in
any mode other than `None`. -/
theorem forceFuel_missingMarker (fuel : Nat) (data : Str) (mode : UnmarshallMode)
    (h : marker.isPrefixOf data = false) (hm : mode ≠ UnmarshallMode.none) :
    unmarshall_force_fuel (fuel+2) data mode =
      .error (.unmarshallError .missingMarker) := by
  simp [unmarshall_force_fuel, hm, internal_missingMarker fuel data mode [] h]

set_option maxRecDepth 1000000

/-- A context block defining map class `C` (single field `k`, display name
`K`) whose root value is a record of class `C` with one `None` field value. -/
def c1Input : Str := strOf ("@SDT/*:148:" ++
  "@SDT/\x7b:113::13:map-class-map@SDT/\x7b:86::1:C@SDT/\x7b:72::4:keys@SDT/[1:54:" ++
  "@SDT/\x7b:44::3:key@SDT/$S:1:k:12:display-name@SDT/$S:1:K" ++
  "@SDT/%:14::1:C@SDT/$0:0:")

/-- A context block defining map class `ClassFoo` with ordered fields
`name`, `color`, `category`, whose root value is a `ClassFoo` record with
three text field values. -/
def c2Input : Str := strOf ("@SDT/*:310:" ++
  "@SDT/\x7b:245::13:map-class-map@SDT/\x7b:217::8:ClassFoo@SDT/\x7b:195::4:keys@SDT/[3:176:" ++
  "@SDT/\x7b:47::3:key@SDT/$S:4:name:12:display-name@SDT/$S:1:N" ++
  "@SDT/\x7b:48::3:key@SDT/$S:5:color:12:display-name@SDT/$S:1:C" ++
  "@SDT/\x7b:51::3:key@SDT/$S:8:category:12:display-name@SDT/$S:1:G" ++
  "@SDT/%:44::8:ClassFoo@SDT/$S:1:a@SDT/$S:1:b@SDT/$S:1:c")

/-- The `ClassFoo` definition of `c2Input`, built through `add_item`. -/
def c2Def : MapClassDefinition :=
  (((⟨Value.text (strOf "ClassFoo"), [], []⟩ : MapClassDefinition).add_item
      (Value.text (strOf "name")) (Value.text (strOf "N")) Value.none).add_item
      (Value.text (strOf "color")) (Value.text (strOf "C")) Value.none).add_item
      (Value.text (strOf "category")) (Value.text (strOf "G")) Value.none

/-- The record encoding nested (as a Text scalar) inside `c8Input`. -/
def c8Record : Str := strOf "@SDT/%:14::1:C@SDT/$0:0:"

/-- A context block defining map class `C`, whose root value is a Text
scalar holding `c8Record`, a record encoding of class `C`. -/
def c8Input : Str := strOf ("@SDT/*:159:" ++
  "@SDT/\x7b:113::13:map-class-map@SDT/\x7b:86::1:C@SDT/\x7b:72::4:keys@SDT/[1:54:" ++
  "@SDT/\x7b:44::3:key@SDT/$S:1:k:12:display-name@SDT/$S:1:K" ++
  "@SDT/$S:24:@SDT/%:14::1:C@SDT/$0:0:")

/-- A definition whose key `k` was added twice through `add_item`, first
with display name `A`, then with display name `B`. -/
def c9Def : MapClassDefinition :=
  ((⟨Value.text (strOf "E"), [], []⟩ : MapClassDefinition).add_item
      (Value.text (strOf "k")) (Value.text (strOf "A")) Value.none).add_item
      (Value.text (strOf "k")) (Value.text (strOf "B")) Value.none

/-- A context block declaring class `E` with the field key `k` listed
twice (display names `A` then `B`), whose root value is an `E` record with
two `None` field values. -/
def c9Input : Str := strOf ("@SDT/*:215:" ++
  "@SDT/\x7b:170::13:map-class-map@SDT/\x7b:142::1:E@SDT/\x7b:127::4:keys@SDT/[2:108:" ++
  "@SDT/\x7b:44::3:key@SDT/$S:1:k:12:display-name@SDT/$S:1:A" ++
  "@SDT/\x7b:44::3:key@SDT/$S:1:k:12:display-name@SDT/$S:1:B" ++
  "@SDT/%:24::1:E@SDT/$0:0:@SDT/$0:0:")

/-- A definition with fields `common` and `genus`, used as the concrete
record schema in witnesses. -/
def c3ExampleDef : MapClassDefinition :=
  ((⟨Value.text (strOf "species"), [], []⟩ : MapClassDefinition).add_item
      (Value.text (strOf "common")) (Value.text (strOf "Common Name"))
      (Value.text (strOf "Common"))).add_item
      (Value.text (strOf "genus")) (Value.text (strOf "Genus")) Value.none

/-- Claim C1 (code bug): the spec says the lenient `decode` (`unmarshall`)
never fails, but decoding a well-formed context block whose root value is a
map class record raises an uncaught `RuntimeError`: `map_class()` calls
`MapClass.update`, whose unconditional `self.update(as_dict)` recursion
exhausts the interpreter stack, and `unmarshall` catches only
`STAFUnmarshallError`.  Both entry points fail with `RuntimeError` on
`c1Input`. -/
theorem c1_lenient_unmarshall_crashes_on_map_class :
    unmarshall c1Input UnmarshallMode.recursive = .error .runtimeError ∧
    unmarshall_force c1Input UnmarshallMode.recursive = .error .runtimeError :=
  ⟨rfl, rfl⟩

/-- Claim C2 (code bug): decoding a well-formed context block whose schema
map declares ordered fields `name`, `color`, `category` for `ClassFoo`
never produces a record: the strict decode of `c2Input` dies with
`RuntimeError` because `map_class()` crashes in `MapClass.update` before
any field value is consumed, for every stack depth. -/
theorem c2_record_decode_crashes :
    unmarshall_force c2Input UnmarshallMode.recursive = .error .runtimeError ∧
    (∀ fuel : Nat, MapClassDefinition.map_class fuel c2Def [] = .error .runtimeError) := by
  constructor
  · rfl
  · obtain ⟨mc, hmk⟩ : ∃ mc, MapClass.make c2Def.name c2Def.keys c2Def.names = .ok mc :=
      ⟨_, rfl⟩
    intro fuel
    simp [MapClassDefinition.map_class, hmk, update_nil_runtimeError]

/-- Claim C3: a record bound to an `add_item`-built definition enforces its
schema: construction yields exactly the definition's key set with every
field `None`; setting a key outside the definition fails with `KeyError`;
a successful set preserves the key set; deletion, `clear`, `pop` and
`popitem` always fail with `NotImplementedError`; and key, item and value
iteration follow the definition's field order. -/
theorem c3_record_invariants (d : MapClassDefinition) (h : alignedDef d) :
    (∃ mc, MapClass.make d.name d.keys d.names = .ok mc ∧ recordInv d mc ∧
        mc.itemsList = .ok (d.keys.map (fun k => (k, Value.none)))) ∧
    (∀ (m : MapClass) (k v : Value), recordInv d m → k ∉ d.keys →
        m.setitem k v = .error (.keyError k)) ∧
    (∀ (m : MapClass) (k v : Value) (m2 : MapClass), recordInv d m →
        m.setitem k v = .ok m2 → recordInv d m2) ∧
    (∀ (m : MapClass) (k : Value), m.delitem k = .error (.notImplementedError
        "item deletion is not supported in MapClass")) ∧
    (∀ m : MapClass, m.clear = .error (.notImplementedError
        "clear() is not supported in MapClass")) ∧
    (∀ (m : MapClass) (k dflt : Value), m.pop k dflt = .error (.notImplementedError
        "pop() is not supported in MapClass")) ∧
    (∀ m : MapClass, m.popitem = .error (.notImplementedError
        "popitem() is not supported in MapClass")) ∧
    (∀ m : MapClass, recordInv d m → m.keysList = d.keys ∧
        ∃ its, m.itemsList = .ok its ∧ its.map Prod.fst = d.keys ∧
          m.valuesList = .ok (its.map Prod.snd)) := by
  obtain ⟨h1, h2⟩ := h
  refine ⟨?_, ?_, ?_, fun _ _ => rfl, fun _ => rfl, fun _ _ _ => rfl, fun _ => rfl, ?_⟩
  · obtain ⟨mc, he, hc, hk, hn, hs⟩ := make_spec d h1
    refine ⟨mc, he, ⟨hk, hn, ?_⟩, ?_⟩
    · intro k
      by_cases hmem : k ∈ d.keys
      · simp [containsKey, hs k, hmem]
      · simp [containsKey, hs k, hmem]
    · have hqq : ∀ k ∈ mc.keys, alookup mc.store k = some Value.none := by
        intro k hkk
        rw [hk] at hkk
        simp [hs k, hkk]
      have hloop := itemsLoop_all_none mc mc.keys hqq
      show MapClass.itemsLoop mc mc.keys = _
      rw [hloop, hk]
  · intro m k v hinv hnot
    obtain ⟨hk, hn, hst⟩ := hinv
    have hck : containsKey m.names k = false := by
      cases hcc : containsKey m.names k with
      | false => rfl
      | true =>
          obtain ⟨p, hp, hp1⟩ := (containsKey_iff_exists m.names k).mp hcc
          rw [hn] at hp
          exact absurd (hp1 ▸ h2 p hp) hnot
    simp [MapClass.setitem, hck]
  · intro m k v m2 hinv hok
    obtain ⟨hk, hn, hst⟩ := hinv
    by_cases hck : containsKey m.names k = true
    · simp [MapClass.setitem, hck] at hok
      have hkin : k ∈ d.keys := by
        obtain ⟨p, hp, hp1⟩ := (containsKey_iff_exists m.names k).mp hck
        rw [hn] at hp
        exact hp1 ▸ h2 p hp
      subst hok
      refine ⟨hk, hn, ?_⟩
      intro k2
      rw [show ({ m with store := assocInsert m.store k v } : MapClass).store =
        assocInsert m.store k v from rfl, containsKey_assocInsert]
      constructor
      · intro hor
        rw [Bool.or_eq_true] at hor
        rcases hor with hcase | hcase
        · exact (hst k2).mp hcase
        · exact (of_decide_eq_true hcase) ▸ hkin
      · intro hmem
        rw [Bool.or_eq_true]
        exact Or.inl ((hst k2).mpr hmem)
    · rw [Bool.not_eq_true] at hck
      simp [MapClass.setitem, hck] at hok
  · intro m hinv
    obtain ⟨hk, hn, hst⟩ := hinv
    obtain ⟨its, hi, hf, hv⟩ := itemsLoop_spec m m.keys (by
      intro k2 hk2
      rw [hk] at hk2
      exact (hst k2).mpr hk2)
    refine ⟨hk, its, hi, ?_, hv⟩
    rw [← hk]
    exact hf

/-- Witness for C3 at a concrete two-field definition. -/
theorem c3_record_invariants_witness :
    alignedDef c3ExampleDef ∧
    (∃ mc, MapClass.make c3ExampleDef.name c3ExampleDef.keys c3ExampleDef.names =
        .ok mc ∧ recordInv c3ExampleDef mc ∧
        mc.itemsList = .ok (c3ExampleDef.keys.map (fun k => (k, Value.none)))) :=
  ⟨by decide, (c3_record_invariants c3ExampleDef (by decide)).1⟩

/-- Claim C4: a record encoding whose class name is absent from the current
context fails with the missing-map-class-definition error (no guessing or
defaulting), and any strict-decode failure by `STAFUnmarshallError` —
including this one — makes the lenient entry point return the raw input
unchanged. -/
theorem c4_missing_schema_definition (fuel : Nat)
    (data content remainder class_name values : Str) (mode : UnmarshallMode)
    (context : Ctx)
    (h1 : read_clc_obj data = .ok (content, remainder))
    (h2 : read_clc_obj content = .ok (class_name, values))
    (h3 : alookup context (.text class_name) = Option.none) :
    MapClassUnmarshaller.unmarshall (fuel+1) data mode context =
      .error (.unmarshallError (.missingMapClassDefinition class_name)) ∧
    ∀ (d2 : Str) (m2 : UnmarshallMode) (msg : UMsg),
      unmarshall_force d2 m2 = .error (.unmarshallError msg) →
      unmarshall d2 m2 = .ok (.text d2) := by
  constructor
  · simp [MapClassUnmarshaller.unmarshall, h1, h2, h3]
  · intro d2 m2 msg hf
    exact unmarshall_of_force_unmarshallError d2 m2 msg hf

/-- Witness for C4 on the record encoding `@SDT/%:16::3:foo@SDT/$0:0:`
against the empty top-level registry. -/
theorem c4_missing_schema_definition_witness :
    read_clc_obj (strOf ":16::3:foo@SDT/$0:0:") = .ok (strOf ":3:foo@SDT/$0:0:", []) ∧
    read_clc_obj (strOf ":3:foo@SDT/$0:0:") = .ok (strOf "foo", strOf "@SDT/$0:0:") ∧
    MapClassUnmarshaller.unmarshall 50 (strOf ":16::3:foo@SDT/$0:0:")
      UnmarshallMode.recursive [] =
      .error (.unmarshallError (.missingMapClassDefinition (strOf "foo"))) ∧
    unmarshall (strOf "@SDT/%:16::3:foo@SDT/$0:0:") UnmarshallMode.recursive =
      .ok (.text (strOf "@SDT/%:16::3:foo@SDT/$0:0:")) := by
  have h := c4_missing_schema_definition 49 (strOf ":16::3:foo@SDT/$0:0:")
    (strOf ":3:foo@SDT/$0:0:") [] (strOf "foo") (strOf "@SDT/$0:0:")
    UnmarshallMode.recursive [] rfl rfl rfl
  exact ⟨rfl, rfl, h.1, h.2 _ _ (.missingMapClassDefinition (strOf "foo")) rfl⟩

/-- Claim C5: each of the five malformed inputs fails under the strict
decode with a `STAFUnmarshallError`: empty input, truncated scalar tag,
`None` scalar with non-empty payload, trailing data after a complete list,
and a map payload whose inner parts leave non-marker leftovers. -/
theorem c5_malformed_inputs_fail :
    unmarshall_force (strOf "") UnmarshallMode.recursive =
      .error (.unmarshallError .missingMarker) ∧
    unmarshall_force (strOf "@SDT/$") UnmarshallMode.recursive =
      .error (.unmarshallError .badScalarFormat) ∧
    unmarshall_force (strOf "@SDT/$0:1:a") UnmarshallMode.recursive =
      .error (.unmarshallError .badNoneFormat) ∧
    unmarshall_force (strOf "@SDT/[0:0:foo") UnmarshallMode.recursive =
      .error (.unmarshallError .trailingData) ∧
    unmarshall_force (strOf "@SDT/\x7b:9::3:foobar") UnmarshallMode.recursive =
      .error (.unmarshallError .missingMarker) :=
  ⟨rfl, rfl, rfl, rfl, rfl⟩

/-- Claim C6: on a doubly nested Text scalar, `Recursive` mode fully
unwraps to the innermost text, `NonRecursive` stops after one level and
returns the inner marker string intact, and mode `None` returns any input
verbatim without parsing, under both entry points. -/
theorem c6_recursion_modes :
    unmarshall (strOf "@SDT/$S:24:@SDT/$S:13:@SDT/$S:3:foo") UnmarshallMode.recursive =
      .ok (.text (strOf "foo")) ∧
    unmarshall (strOf "@SDT/$S:24:@SDT/$S:13:@SDT/$S:3:foo")
      UnmarshallMode.nonRecursive = .ok (.text (strOf "@SDT/$S:13:@SDT/$S:3:foo")) ∧
    ∀ data : Str, unmarshall data UnmarshallMode.none = .ok (.text data) ∧
      unmarshall_force data UnmarshallMode.none = .ok (.text data) :=
  ⟨rfl, rfl, fun _ => ⟨rfl, rfl⟩⟩

/-- Claim C7: an input that does not start with the `@SDT/` marker decodes
to itself under the lenient entry point and fails with the missing-marker
error under the strict entry point, in any mode other than `None`. -/
theorem c7_non_marker_inputs (data : Str) (mode : UnmarshallMode)
    (h : marker.isPrefixOf data = false) (hm : mode ≠ UnmarshallMode.none) :
    unmarshall data mode = .ok (.text data) ∧
    unmarshall_force data mode = .error (.unmarshallError .missingMarker) := by
  have hforce : unmarshall_force data mode = .error (.unmarshallError .missingMarker) := by
    show unmarshall_force_fuel (998+2) data mode = _
    exact forceFuel_missingMarker 998 data mode h hm
  exact ⟨unmarshall_of_force_unmarshallError data mode _ hforce, hforce⟩

/-- Witness for C7 at the input `Hello` in `Recursive` mode. -/
theorem c7_non_marker_inputs_witness :
    marker.isPrefixOf (strOf "Hello") = false ∧
    UnmarshallMode.recursive ≠ UnmarshallMode.none ∧
    unmarshall (strOf "Hello") UnmarshallMode.recursive = .ok (.text (strOf "Hello")) ∧
    unmarshall_force (strOf "Hello") UnmarshallMode.recursive =
      .error (.unmarshallError .missingMarker) := by
  have h := c7_non_marker_inputs (strOf "Hello") UnmarshallMode.recursive
    (by decide) (by decide)
  exact ⟨by decide, by decide, h.1, h.2⟩

/-- Claim C8: the recursive re-decode of a Text scalar goes through the
lenient entry point with a fresh empty registry: the scalar unmarshaller's
result never depends on the enclosing context, and on `c8Input` (a context
defining class `C` whose root is a Text scalar holding a `C` record
encoding) the enclosing strict decode succeeds returning the nested record
encoding as its raw marker string, while directly strict-decoding that
nested encoding at top level fails to resolve the schema. -/
theorem c8_scalar_redecode_fresh_context :
    (∀ (fuel : Nat) (data : Str) (mode : UnmarshallMode) (ctx ctx2 : Ctx),
      ScalarUnmarshaller.unmarshall fuel data mode ctx =
        ScalarUnmarshaller.unmarshall fuel data mode ctx2) ∧
    unmarshall_force c8Input UnmarshallMode.recursive = .ok (.text c8Record) ∧
    unmarshall_force c8Record UnmarshallMode.recursive =
      .error (.unmarshallError (.missingMapClassDefinition (strOf "C"))) := by
  refine ⟨?_, rfl, rfl⟩
  intro fuel data mode ctx ctx2
  cases fuel with
  | zero => rfl
  | succ n => rfl

/-- Claim C9: calling `add_item` twice with the same key appends the key a
second time to the ordered key list while overwriting its display names; a
`MapClass` built from such a definition lists the key once per occurrence;
and decoding a record bound to the duplicated definition crashes with
`RuntimeError` in `MapClass.update` (so the per-entry value consumption is
unobservable). -/
theorem c9_duplicate_add_item :
    c9Def.keys = [Value.text (strOf "k"), Value.text (strOf "k")] ∧
    c9Def.display_name (Value.text (strOf "k")) = .ok (Value.text (strOf "B")) ∧
    c9Def.display_short_name (Value.text (strOf "k")) = .ok Value.none ∧
    (∃ mc, MapClass.make c9Def.name c9Def.keys c9Def.names = .ok mc ∧
      mc.keysList = [Value.text (strOf "k"), Value.text (strOf "k")]) ∧
    unmarshall_force c9Input UnmarshallMode.recursive = .error .runtimeError :=
  ⟨rfl, rfl, rfl, ⟨_, rfl, rfl⟩, rfl⟩

/-- Claim C10: a well-formed context block whose embedded context map lacks
the reserved `map-class-map` key does not fail on that account: the context
built for the root value is empty, and the whole block decodes successfully
whenever the root value decodes under the empty registry (which any root
value without record-typed entries does). -/
theorem c10_context_without_map_class_map (fuel : Nat)
    (data content remainder root_data : Str) (mode : UnmarshallMode)
    (context : Ctx) (entries : List (Value × Value)) (root_obj : Value)
    (h1 : read_clc_obj data = .ok (content, remainder))
    (h2 : unmarshall_internal fuel content mode context = .ok (.map entries, root_data))
    (h3 : alookup entries mapClassMapKey = Option.none)
    (h4 : unmarshall_internal fuel root_data mode [] = .ok (root_obj, [])) :
    ContextUnmarshaller.unmarshall (fuel+1) data mode context =
      .ok (root_obj, remainder) := by
  simp [ContextUnmarshaller.unmarshall, h1, h2, dictGetV, h3, Option.getD,
    iterItemsV, buildDefs, h4]

/-- Witness for C10 on `@SDT/*:19:@SDT/{:0:@SDT/$0:0:` (a context with an
empty context map and a `None` root value). -/
theorem c10_context_without_map_class_map_witness :
    read_clc_obj (strOf ":19:@SDT/\x7b:0:@SDT/$0:0:") =
      .ok (strOf "@SDT/\x7b:0:@SDT/$0:0:", []) ∧
    unmarshall_internal 50 (strOf "@SDT/\x7b:0:@SDT/$0:0:")
      UnmarshallMode.recursive [] = .ok (.map [], strOf "@SDT/$0:0:") ∧
    alookup ([] : List (Value × Value)) mapClassMapKey = Option.none ∧
    unmarshall_internal 50 (strOf "@SDT/$0:0:") UnmarshallMode.recursive [] =
      .ok (Value.none, []) ∧
    ContextUnmarshaller.unmarshall 51 (strOf ":19:@SDT/\x7b:0:@SDT/$0:0:")
      UnmarshallMode.recursive [] = .ok (Value.none, []) := by
  have h := c10_context_without_map_class_map 50 (strOf ":19:@SDT/\x7b:0:@SDT/$0:0:")
    (strOf "@SDT/\x7b:0:@SDT/$0:0:") [] (strOf "@SDT/$0:0:")
    UnmarshallMode.recursive [] [] Value.none rfl rfl rfl rfl
  exact ⟨rfl, rfl, rfl, rfl, h⟩
